import Mathlib

/-!
Shallow embedding of the Nemesis Kart race simulation (src/nemesis_kart.py).

Positions, speeds and probabilities are modelled as rationals (the source
uses Python floats; every constant the claims touch is exact in both).
Relationship scores are integers, timers and counters are naturals.
Python dictionaries keyed by racer name are modelled as association lists in
insertion order; dictionaries with a fixed key set (item_uses, times_hit_by)
are modelled as total functions.  A Python exception (NameError, KeyError,
AttributeError, ValueError) is modelled by returning `none` from the function
in whose body the source would raise.
-/

namespace NemesisKart

/-- The four item kinds (class Item). -/
inductive Item where
  | boost
  | greenShell
  | redShell
  | banana
deriving DecidableEq, Repr

/-- Nemesis traits (class Trait).  SLIPPERY is declared in the source but never
granted. -/
inductive Trait where
  | aggressive
  | shellShocked
  | targetFixated
  | slippery
deriving DecidableEq, Repr

/-- The CONFIG dictionary.  The four item chances are stored already divided by
their sum; with the default values the sum is exactly 1, so the normalized
defaults equal the raw ones. -/
structure Config where
  trackLength : ℚ
  numRacers : ℕ
  playerControlled : Bool
  baseSpeedMin : ℚ
  baseSpeedMax : ℚ
  boostSpeedBonus : ℚ
  boostDuration : ℕ
  shellHitSpeedPenalty : ℚ
  shellHitDuration : ℕ
  bananaHitSpeedPenalty : ℚ
  bananaHitDuration : ℕ
  itemBoxSpacing : ℚ
  itemChanceBoost : ℚ
  itemChanceGreenShell : ℚ
  itemChanceRedShell : ℚ
  itemChanceBanana : ℚ
  catchUpAssistThreshold : ℚ
  catchUpItemBoostMult : ℚ
  nemesisHitRelationshipPenalty : ℤ
  nemesisOvertakeRelationshipPenalty : ℤ
  nemesisFinishAheadPenalty : ℤ
  nemesisTargetingThreshold : ℤ
  nemesisTraitThreshold : ℕ

/-- The default CONFIG values from the top of the source file. -/
def defaultConfig : Config where
  trackLength := 1000
  numRacers := 8
  playerControlled := true
  baseSpeedMin := 8
  baseSpeedMax := 12
  boostSpeedBonus := 15
  boostDuration := 3
  shellHitSpeedPenalty := -20
  shellHitDuration := 2
  bananaHitSpeedPenalty := -15
  bananaHitDuration := 3
  itemBoxSpacing := 200
  itemChanceBoost := 2/5
  itemChanceGreenShell := 3/10
  itemChanceRedShell := 1/5
  itemChanceBanana := 1/10
  catchUpAssistThreshold := 150
  catchUpItemBoostMult := 3/2
  nemesisHitRelationshipPenalty := -3
  nemesisOvertakeRelationshipPenalty := -1
  nemesisFinishAheadPenalty := -2
  nemesisTargetingThreshold := -5
  nemesisTraitThreshold := 3

/-- One racer (class Racer).  `lastHitByItem` is `Option (Option Item)`:
`none` means the attribute `last_hit_by_item` was never assigned (the
constructor does not set it), `some none` means it holds Python `None`, and
`some (some i)` means it holds item `i`. -/
structure Racer where
  name : String
  isPlayer : Bool
  position : ℚ
  speed : ℚ
  baseSpeed : ℚ
  currentItem : Option Item
  itemUses : Item → ℕ
  timesHitBy : Item → ℕ
  boostTimer : ℕ
  hitTimer : ℕ
  lastHitBy : Option String
  lastHitByItem : Option (Option Item)
  relationships : List (String × ℤ)
  traits : Trait → Bool
  hitByCount : List (String × ℕ)
  hitOthersCount : List (String × ℕ)
  nextItemBoxPos : ℚ

/-- Racer.__init__.  The speed argument stands for the value drawn by
random.uniform(base_speed_min, base_speed_max).  Note that `last_hit_by` is
set to None but `last_hit_by_item` is never assigned. -/
def mkRacer (cfg : Config) (name : String) (isPlayer : Bool) (speed : ℚ) : Racer where
  name := name
  isPlayer := isPlayer
  position := 0
  speed := speed
  baseSpeed := speed
  currentItem := none
  itemUses := fun _ => 0
  timesHitBy := fun _ => 0
  boostTimer := 0
  hitTimer := 0
  lastHitBy := none
  lastHitByItem := none
  relationships := []
  traits := fun _ => false
  hitByCount := []
  hitOthersCount := []
  nextItemBoxPos := cfg.itemBoxSpacing

/-- Racer.initialize_relationships: zero out the relationship and hit-count
maps for every other racer, in the order the racers were created. -/
def initRelationships (r : Racer) (allRacers : List Racer) : Racer :=
  let others := allRacers.filter (fun o => o.name ≠ r.name)
  { r with
    relationships := others.map (fun o => (o.name, (0 : ℤ)))
    hitByCount := others.map (fun o => (o.name, 0))
    hitOthersCount := others.map (fun o => (o.name, 0)) }

/-- Racer.update_relationship: clamp the updated score into [-10, 10]; silently
ignore names that are not in the map. -/
def updateRelationship (rel : List (String × ℤ)) (otherName : String) (change : ℤ) :
    List (String × ℤ) :=
  if (rel.lookup otherName).isSome then
    rel.map (fun p => if p.1 = otherName then (p.1, max (-10) (min 10 (p.2 + change))) else p)
  else rel

/-- relationships.get(name, 0). -/
def relGet (rel : List (String × ℤ)) (n : String) : ℤ :=
  (rel.lookup n).getD 0

/-- dict.get(k, 0) + 1 assignment on a name-keyed counter dictionary: update
the existing entry or append a fresh one. -/
def bumpCount (m : List (String × ℕ)) (k : String) : List (String × ℕ) :=
  match m.lookup k with
  | some v => m.map (fun p => if p.1 = k then (p.1, v + 1) else p)
  | none => m ++ [(k, 1)]

/-- Update one trait flag of a trait set. -/
def setTrait (ts : Trait → Bool) (t : Trait) (b : Bool) : Trait → Bool :=
  fun t2 => if t2 = t then b else ts t2

/-- Racer.check_trait_conditions.  The guarded add_trait calls are idempotent,
so they are modelled as plain flag writes; Target-Fixated is also removed
when no sufficiently negative relationship remains. -/
def checkTraitConditions (cfg : Config) (r : Racer) : Racer :=
  let offensiveUses := r.itemUses Item.greenShell + r.itemUses Item.redShell
  let ts1 := if cfg.nemesisTraitThreshold ≤ offensiveUses then
    setTrait r.traits Trait.aggressive true else r.traits
  let shellHits := r.timesHitBy Item.greenShell + r.timesHitBy Item.redShell
  let ts2 := if cfg.nemesisTraitThreshold ≤ shellHits then
    setTrait ts1 Trait.shellShocked true else ts1
  let hasStrongNegative := r.relationships.any (fun p => decide (p.2 ≤ cfg.nemesisTargetingThreshold))
  let ts3 := if hasStrongNegative then setTrait ts2 Trait.targetFixated true
    else setTrait ts2 Trait.targetFixated false
  { r with traits := ts3 }

/-- Racer.apply_hit.  Returns `none` for the KeyError the source would raise on
`times_hit_by[item_type]` when the item is a Boost (no caller ever passes one).
The immunity branch returns before any mutation.  The two
`if attacker_name:` blocks test Python truthiness; no attacker name in the
program is the empty string, so the test is modelled as the None check. -/
def applyHit (cfg : Config) (r : Racer) (attackerName : Option String) (itemType : Item) :
    Option Racer :=
  if 0 < r.hitTimer then
    some r
  else
    match itemType with
    | Item.boost => none
    | _ =>
      let r1 := { r with
        boostTimer := 0
        lastHitBy := attackerName
        lastHitByItem := some (some itemType)
        timesHitBy := fun i => if i = itemType then r.timesHitBy i + 1 else r.timesHitBy i }
      let r2 := match attackerName with
        | some a => { r1 with hitByCount := bumpCount r1.hitByCount a }
        | none => r1
      let r3 := { r2 with
        hitTimer := if itemType = Item.banana then cfg.bananaHitDuration else cfg.shellHitDuration }
      let r4 := match attackerName with
        | some a =>
            { r3 with relationships :=
                updateRelationship r3.relationships a cfg.nemesisHitRelationshipPenalty }
        | none => r3
      some (checkTraitConditions cfg r4)

/-- A pending hit event, {"type": "hit", ...} (the type tag is always "hit"). -/
structure HitEvent where
  attacker : String
  target : String
  item : Item
deriving DecidableEq, Repr

/-- A dropped obstacle; the source field "type" is called `kind` here. -/
structure Obstacle where
  kind : Item
  position : ℚ
  owner : String
deriving DecidableEq, Repr

/-- Result of Racer.use_item: the returned bool plus the mutations to the
racer, the pending-events list and the shared obstacle list. -/
structure UseResult where
  used : Bool
  racer : Racer
  events : List HitEvent
  obstacles : List Obstacle

/-- Racer.use_item.  `racersView` is the (name, position) projection of the
live game_state['racers'] dictionary, which is all use_item reads from it. -/
def useItem (cfg : Config) (r : Racer) (targetName : Option String)
    (racersView : List (String × ℚ)) (events : List HitEvent)
    (obstacles : List Obstacle) : UseResult :=
  match r.currentItem with
  | none => ⟨false, r, events, obstacles⟩
  | some itemUsed =>
    let r1 := { r with
      currentItem := none
      itemUses := fun i => if i = itemUsed then r.itemUses i + 1 else r.itemUses i }
    match itemUsed with
    | Item.boost => ⟨true, { r1 with boostTimer := cfg.boostDuration }, events, obstacles⟩
    | Item.greenShell =>
      match targetName with
      | none => ⟨true, r1, events, obstacles⟩
      | some t =>
        match racersView.lookup t with
        | none => ⟨true, r1, events, obstacles⟩
        | some _ =>
          ⟨true, { r1 with hitOthersCount := bumpCount r1.hitOthersCount t },
            events ++ [⟨r1.name, t, Item.greenShell⟩], obstacles⟩
    | Item.redShell =>
      match targetName with
      | none => ⟨true, r1, events, obstacles⟩
      | some t =>
        match racersView.lookup t with
        | none => ⟨true, r1, events, obstacles⟩
        | some tpos =>
          if r.position < tpos then
            ⟨true, { r1 with hitOthersCount := bumpCount r1.hitOthersCount t },
              events ++ [⟨r1.name, t, Item.redShell⟩], obstacles⟩
          else ⟨true, r1, events, obstacles⟩
    | Item.banana =>
      ⟨true, r1, events,
        obstacles ++ [⟨Item.banana, r.position - r.baseSpeed / 2, r1.name⟩]⟩

/-- The boost probability Racer.get_item samples against.  The source reads
game_state['positions'][-1] — the LAST entry of the descending-sorted list,
i.e. the racer in last place — as "leader_pos". -/
def usedBoostChance (cfg : Config) (r : Racer) (positions : List (String × ℚ)) : ℚ :=
  let leaderPos := match positions.getLast? with
    | some p => p.2
    | none => r.position
  if cfg.catchUpAssistThreshold < leaderPos - r.position then
    cfg.itemChanceBoost * cfg.catchUpItemBoostMult
  else cfg.itemChanceBoost

/-- Racer.get_item: draw an item from the (possibly catch-up-modified) chances
using one sample of random.random(). -/
def getItem (cfg : Config) (r : Racer) (positions : List (String × ℚ)) (randVal : ℚ) : Racer :=
  let boostChance := usedBoostChance cfg r positions
  let shellChance := cfg.itemChanceGreenShell
  let redShellChance := cfg.itemChanceRedShell
  let item :=
    if randVal < boostChance then Item.boost
    else if randVal < boostChance + shellChance then Item.greenShell
    else if randVal < boostChance + shellChance + redShellChance then Item.redShell
    else Item.banana
  { r with currentItem := some item }

/-- Consume the next random.random() sample from the stream. -/
def rngNext : List ℚ → ℚ × List ℚ
  | [] => (0, [])
  | x :: xs => (x, xs)

/-- Racer.update_step.  Returns `none` for the AttributeError the source would
raise reading the never-assigned `last_hit_by_item` while hit (unreachable:
the attribute is assigned whenever the hit timer becomes positive).
`positions` is the game_state['positions'] snapshot that get_item reads for
its catch-up check; the random stream is consumed only if an item is drawn. -/
def updateStep (cfg : Config) (r : Racer) (positions : List (String × ℚ)) (rng : List ℚ) :
    Option (Racer × List ℚ) :=
  let speedAndRacer : Option (ℚ × Racer) :=
    if 0 < r.hitTimer then
      match r.lastHitByItem with
      | none => none
      | some lhi =>
        let penalty0 : ℚ :=
          if lhi = some Item.greenShell ∨ lhi = some Item.redShell then cfg.shellHitSpeedPenalty
          else if lhi = some Item.banana then cfg.bananaHitSpeedPenalty
          else 0
        let penalty := if r.traits Trait.shellShocked then penalty0 * (3/2) else penalty0
        let h2 := r.hitTimer - 1
        some (r.baseSpeed + penalty,
          { r with
            hitTimer := h2
            lastHitBy := if h2 = 0 then none else r.lastHitBy
            lastHitByItem := if h2 = 0 then some none else r.lastHitByItem })
    else if 0 < r.boostTimer then
      some (r.baseSpeed + cfg.boostSpeedBonus, { r with boostTimer := r.boostTimer - 1 })
    else
      some (r.baseSpeed, r)
  match speedAndRacer with
  | none => none
  | some (spd, r1) =>
    let currentSpeed := max 1 spd
    let r2 := { r1 with position := r1.position + currentSpeed }
    if r2.nextItemBoxPos ≤ r2.position then
      let (r3, rng2) :=
        if r2.currentItem = none then
          let (v, rng2) := rngNext rng
          (getItem cfg r2 positions v, rng2)
        else (r2, rng)
      some ({ r3 with nextItemBoxPos := r3.nextItemBoxPos + cfg.itemBoxSpacing }, rng2)
    else some (r2, rng)

/-- list.index(x): the index of the first occurrence, None standing for the
ValueError raised when absent. -/
def indexOfPair (x : String × ℚ) : List (String × ℚ) → Option ℕ
  | [] => none
  | y :: ys => if y = x then some 0 else (indexOfPair x ys).map (fun i => i + 1)

/-- random.choice over a list, driven by one sample (index = floor of the
sample scaled by the length). -/
def randChoice (l : List (String × ℚ)) (v : ℚ) : Option (String × ℚ) :=
  l.get? (Int.toNat ⌊v * l.length⌋)

/-- min over the keys of a name dictionary by relationship score; Python's min
keeps the first minimum in iteration order.  The source indexes
relationships[name] directly; every key reaching this point passed the
strictly negative nemesis threshold, so it is present in the map and the
get-with-default read here agrees with it. -/
def argminByRel (rel : List (String × ℤ)) : List (String × ℚ) → Option (String × ℚ)
  | [] => none
  | x :: xs =>
    some (xs.foldl (fun best y => if relGet rel y.1 < relGet rel best.1 then y else best) x)

/-- min(racers_ahead, key=lambda r: r.position); first minimum wins. -/
def minByPos : List (String × ℚ) → Option (String × ℚ)
  | [] => none
  | x :: xs => some (xs.foldl (fun best y => if y.2 < best.2 then y else best) x)

/-- Racer.decide_action for one racer.  `positions` is the descending-sorted
game_state['positions'] snapshot, `racersView` the (name, position)
projection of game_state['racers'] (all the method reads from it).  The
result is the (action, target) pair; `none` models a raised exception:
either list.index failing (ValueError) or — decisive for claim C1 — the
fact that the two list comprehensions building racers_ahead / racers_behind
have the unbound name `r` as element expression, so producing a non-empty
list raises NameError.  Because the slices look at the wrong side of the
descending-sorted list, both filters always come up empty in practice and
the NameError is never reached. -/
def decideAction (cfg : Config) (r : Racer) (positions : List (String × ℚ))
    (racersView : List (String × ℚ)) (rng : List ℚ) :
    Option ((Option String × Option String) × List ℚ) :=
  if r.isPlayer then some ((none, none), rng)
  else match r.currentItem with
  | none => some ((some "drive", none), rng)
  | some item =>
    match indexOfPair (r.name, r.position) positions with
    | none => none
    | some myPosIndex =>
      let aheadPairs := (positions.drop (myPosIndex + 1)).filter (fun q => decide (r.position < q.2))
      let behindPairs := (positions.take myPosIndex).filter (fun q => decide (q.2 < r.position))
      if aheadPairs ≠ [] ∨ behindPairs ≠ [] then none
      else
        let racersAhead : List (String × ℚ) := []
        let racersBehind : List (String × ℚ) := []
        let strongNegativeTargets := racersView.filter
          (fun p => decide (relGet r.relationships p.1 ≤ cfg.nemesisTargetingThreshold))
        let nemesisTarget := argminByRel r.relationships strongNegativeTargets
        match item with
        | Item.boost =>
          if r.boostTimer = 0 then some ((some "use_item", none), rng)
          else some ((some "drive", none), rng)
        | Item.greenShell =>
          let (target, rng2) :=
            if (match nemesisTarget with
                | some nt => decide (nt ∈ racersAhead)
                | none => false) then (nemesisTarget, rng)
            else if racersAhead ≠ [] then
              let (v, rng2) := rngNext rng
              (randChoice racersAhead v, rng2)
            else (none, rng)
          match target with
          | some t => some ((some "use_item", some t.1), rng2)
          | none => some ((some "drive", none), rng2)
        | Item.redShell =>
          let target :=
            if (match nemesisTarget with
                | some nt => decide (nt ∈ racersAhead)
                | none => false) then nemesisTarget
            else if racersAhead ≠ [] then minByPos racersAhead
            else none
          match target with
          | some t => some ((some "use_item", some t.1), rng)
          | none => some ((some "drive", none), rng)
        | Item.banana =>
          let racersCloseBehind := racersBehind.filter (fun q => decide (r.position - q.2 < 50))
          if (match nemesisTarget with
              | some nt => decide (nt ∈ racersCloseBehind)
              | none => false) then
            some ((some "use_item", none), rng)
          else
            let (cond2, rng2) :=
              if racersCloseBehind = [] then (false, rng)
              else
                let (v, rngA) := rngNext rng
                (decide (v < 7/10), rngA)
            if cond2 then some ((some "use_item", none), rng2)
            else
              let (cond3, rng3) :=
                if r.traits Trait.aggressive then
                  let (v, rngB) := rngNext rng2
                  (decide (v < 3/10), rngB)
                else (false, rng2)
              if cond3 then some ((some "use_item", none), rng3)
              else some ((some "drive", none), rng3)

/-- The mutable race state owned by class Game.  `racers` keeps the dictionary
insertion order (player first, then CPU_1, CPU_2, ...). -/
structure Game where
  racers : List Racer
  playerName : String
  winner : Option String
  stepCount : ℕ
  gameOver : Bool
  lastPositions : List (String × ℚ)
  obstacles : List Obstacle

/-- Stable insertion keeping positions descending: the inserted element comes
from earlier in the original list, so it goes before equal positions, which
matches Python's stable sorted(..., reverse=True). -/
def insertRacerDesc (x : Racer) : List Racer → List Racer
  | [] => [x]
  | y :: ys => if y.position ≤ x.position then x :: y :: ys else y :: insertRacerDesc x ys

/-- sorted(racers, key=lambda r: r.position, reverse=True). -/
def sortRacersDesc : List Racer → List Racer
  | [] => []
  | x :: xs => insertRacerDesc x (sortRacersDesc xs)

/-- Stable descending insertion for (name, value) pairs by value. -/
def insertPairDesc (x : String × ℚ) : List (String × ℚ) → List (String × ℚ)
  | [] => [x]
  | y :: ys => if y.2 ≤ x.2 then x :: y :: ys else y :: insertPairDesc x ys

/-- sorted(last_positions.items(), key=lambda item: item[1], reverse=True). -/
def sortPairsDesc : List (String × ℚ) → List (String × ℚ)
  | [] => []
  | x :: xs => insertPairDesc x (sortPairsDesc xs)

/-- Stable ascending insertion for (name, score) pairs by score. -/
def insertPairAsc (x : String × ℤ) : List (String × ℤ) → List (String × ℤ)
  | [] => [x]
  | y :: ys => if x.2 ≤ y.2 then x :: y :: ys else y :: insertPairAsc x ys

/-- sorted(relationships.items(), key=lambda item: item[1]). -/
def sortPairsAsc : List (String × ℤ) → List (String × ℤ)
  | [] => []
  | x :: xs => insertPairAsc x (sortPairsAsc xs)

/-- game_state['positions']: (name, position) of every racer, sorted by
position descending (Game.get_state). -/
def statePositions (racers : List Racer) : List (String × ℚ) :=
  (sortRacersDesc racers).map (fun r => (r.name, r.position))

/-- The (name, position) projection of the racers dictionary in insertion
order (what use_item and decide_action read from game_state['racers']). -/
def racersViewOf (racers : List Racer) : List (String × ℚ) :=
  racers.map (fun r => (r.name, r.position))

/-- Game.__init__.  `speeds` supplies the random.uniform draws, one per racer
in creation order; the player (or its AI stand-in when player_controlled is
false) is created first, then CPU_1 .. CPU_{n-1}. -/
def initGame (cfg : Config) (speeds : List ℚ) : Game :=
  let cpuNames := (List.range (cfg.numRacers - 1)).map (fun i => "CPU_" ++ toString (i + 1))
  let names := "Player" :: cpuNames
  let racers0 := (names.zip speeds).map
    (fun p => mkRacer cfg p.1 (p.1 = "Player" && cfg.playerControlled) p.2)
  let racers1 := racers0.map (fun r => initRelationships r racers0)
  { racers := racers1
    playerName := "Player"
    winner := none
    stepCount := 0
    gameOver := false
    lastPositions := []
    obstacles := [] }

/-- Step phase 1: collect (action, target) decisions per racer in dictionary
order.  The player's action is the externally supplied pair (defaulting to
"drive" when absent or empty, Python truthiness); AI racers run
decide_action against the step-start snapshot. -/
def decidePhase (cfg : Config) (racers : List Racer) (positions : List (String × ℚ))
    (racersView : List (String × ℚ)) (pAct pTgt : Option String) (rng : List ℚ) :
    Option (List (Option String × Option String) × List ℚ) :=
  match racers with
  | [] => some ([], rng)
  | r :: rest =>
    let step1 : Option ((Option String × Option String) × List ℚ) :=
      if r.isPlayer then
        match pAct with
        | none => some ((some "drive", none), rng)
        | some s => if s = "" then some ((some "drive", none), rng) else some ((some s, pTgt), rng)
      else decideAction cfg r positions racersView rng
    match step1 with
    | none => none
    | some (act, rng1) =>
      match decidePhase cfg rest positions racersView pAct pTgt rng1 with
      | none => none
      | some (acts, rng2) => some (act :: acts, rng2)

/-- Step phase 2: for every racer in dictionary order, run use_item when its
action is "use_item", then always run update_step.  Earlier racers' updates
are visible to later racers through the live racers view (the shared
game_state['racers'] dictionary); update_step's item draw reads the
step-start `snapshotPositions`. -/
def executeLoop (cfg : Config) (done : List Racer)
    (pending : List (Racer × (Option String × Option String)))
    (snapshotPositions : List (String × ℚ)) (events : List HitEvent)
    (obstacles : List Obstacle) (rng : List ℚ) :
    Option (List Racer × List HitEvent × List Obstacle × List ℚ) :=
  match pending with
  | [] => some (done, events, obstacles, rng)
  | (r, act) :: rest =>
    let view := racersViewOf (done ++ r :: rest.map (fun p => p.1))
    let afterUse :=
      if act.1 = some "use_item" then
        let u := useItem cfg r act.2 view events obstacles
        (u.racer, u.events, u.obstacles)
      else (r, events, obstacles)
    match updateStep cfg afterUse.1 snapshotPositions rng with
    | none => none
    | some (r2, rng2) =>
      executeLoop cfg (done ++ [r2]) rest snapshotPositions afterUse.2.1 afterUse.2.2 rng2

/-- Apply a hit to the racer named `tname` (self.racers.get: an absent name is
silently skipped). -/
def applyHitToName (cfg : Config) (racers : List Racer) (tname : String)
    (attacker : Option String) (it : Item) : Option (List Racer) :=
  racers.mapM (fun r => if r.name = tname then applyHit cfg r attacker it else some r)

/-- Step phase 3: resolve the pending hit events in emission order (the event
type tag is always "hit"). -/
def eventsPhase (cfg : Config) (racers : List Racer) : List HitEvent → Option (List Racer)
  | [] => some racers
  | e :: rest =>
    match applyHitToName cfg racers e.target (some e.attacker) e.item with
    | none => none
    | some racers2 => eventsPhase cfg racers2 rest

/-- Did this racer's pre-to-post step interval cross the obstacle position?
(min last cur < obs ≤ max last cur, with the pre-step position defaulting to
the current one when absent from last_positions). -/
def crossedObstacle (lastPositions : List (String × ℚ)) (r : Racer) (obsPos : ℚ) : Bool :=
  let lastPos := (lastPositions.lookup r.name).getD r.position
  decide (min lastPos r.position < obsPos) && decide (obsPos ≤ max lastPos r.position)

/-- Step phase 4: each obstacle is consumed by the first racer (in dictionary
order) whose movement interval crossed it and who is not hit-immune;
obstacles nobody consumed are kept in order. -/
def obstacleLoop (cfg : Config) (lastPositions : List (String × ℚ)) (racers : List Racer) :
    List Obstacle → Option (List Racer × List Obstacle)
  | [] => some (racers, [])
  | obs :: rest =>
    match racers.find? (fun r => crossedObstacle lastPositions r obs.position && r.hitTimer == 0) with
    | none =>
      match obstacleLoop cfg lastPositions racers rest with
      | none => none
      | some (rs, kept) => some (rs, obs :: kept)
    | some victim =>
      match applyHitToName cfg racers victim.name (some obs.owner) obs.kind with
      | none => none
      | some racers2 => obstacleLoop cfg lastPositions racers2 rest

/-- The overtaken racer's relationship toward the overtaker drops by the
configured penalty. -/
def penalizeOvertaken (cfg : Config) (racers : List Racer)
    (overtakenName overtakerName : String) : List Racer :=
  racers.map (fun r =>
    if r.name = overtakenName then
      { r with relationships :=
          updateRelationship r.relationships overtakerName cfg.nemesisOvertakeRelationshipPenalty }
    else r)

/-- Step phase 5: rank-improvement overtake penalties.  For every racer whose
rank index improved against the pre-step ranking, each name in the slipped
index range (new rank + 1 .. old rank, bounds-checked like the source)
penalizes the overtaker. -/
def overtakePhase (cfg : Config) (racers : List Racer) (lastPositions : List (String × ℚ)) :
    List Racer :=
  let curNames := (sortRacersDesc racers).map (fun r => r.name)
  let lastNames := (sortPairsDesc lastPositions).map (fun p => p.1)
  curNames.enum.foldl (fun rs pair =>
    match lastNames.findIdx? (fun n => n == pair.2) with
    | none => rs
    | some lastIdx =>
      if pair.1 < lastIdx then
        (List.range' (pair.1 + 1) (lastIdx - pair.1)).foldl (fun rs2 j =>
          if j < lastNames.length then
            penalizeOvertaken cfg rs2 (lastNames.getD j "") pair.2
          else rs2) rs
      else rs) racers

/-- The sorted-order names strictly ahead of `n` (the racer names are unique
dictionary keys, so this equals the index-based slice the source takes). -/
def namesAheadOf (sortedNames : List String) (n : String) : List String :=
  sortedNames.takeWhile (fun m => m ≠ n)

/-- Step phase 6: the first racer in dictionary order at or past the finish
becomes the winner, the race turns terminal, and every other racer's
relationship toward each racer ahead of it in the final ordering drops by
the finish-ahead penalty. -/
def winCheckPhase (cfg : Config) (g : Game) : Game :=
  match g.racers.find? (fun r => decide (cfg.trackLength ≤ r.position)) with
  | none => g
  | some w =>
    let sortedNames := (sortRacersDesc g.racers).map (fun r => r.name)
    let racers2 := g.racers.map (fun r =>
      if r.name = w.name then r
      else
        let rel2 := (namesAheadOf sortedNames r.name).foldl
          (fun rel n => updateRelationship rel n cfg.nemesisFinishAheadPenalty)
          r.relationships
        { r with relationships := rel2 })
    { g with winner := some w.name, gameOver := true, racers := racers2 }

/-- Game.run_step.  Returns `none` when a modelled Python exception would
abort the step, otherwise the new game state (whose `gameOver` field is the
bool run_step returns).  A terminal game is returned unchanged at once. -/
def runStep (cfg : Config) (g : Game) (playerAction playerTarget : Option String)
    (rng : List ℚ) : Option Game :=
  if g.gameOver then some g
  else
    let g1 := { g with stepCount := g.stepCount + 1 }
    let positions := statePositions g1.racers
    match decidePhase cfg g1.racers positions (racersViewOf g1.racers)
        playerAction playerTarget rng with
    | none => none
    | some (actions, rng1) =>
      let lastPositions := g1.racers.map (fun r => (r.name, r.position))
      match executeLoop cfg [] (g1.racers.zip actions) positions [] g1.obstacles rng1 with
      | none => none
      | some (racers2, events, obstacles2, _) =>
        match eventsPhase cfg racers2 events with
        | none => none
        | some racers3 =>
          match obstacleLoop cfg lastPositions racers3 obstacles2 with
          | none => none
          | some (racers4, obstacles3) =>
            let racers5 := overtakePhase cfg racers4 lastPositions
            let g2 := { g1 with
              racers := racers5
              obstacles := obstacles3
              lastPositions := lastPositions }
            let g3 := winCheckPhase cfg g2
            some { g3 with racers := g3.racers.map (checkTraitConditions cfg) }

/-- The fields Game.get_racer_details reads and renders, as a structured
record.  `itemUses` and `timesHitBy` keep the dictionary key order of the
constructor; `relationships` is sorted by score ascending; the two hit-count
lists keep only the positive entries, as printed. -/
structure RacerDetails where
  position : ℚ
  baseSpeed : ℚ
  currentItem : Option Item
  boostTimer : ℕ
  hitTimer : ℕ
  lastHitBy : Option String
  lastHitByItem : Option Item
  traits : Trait → Bool
  itemUses : List (Item × ℕ)
  timesHitBy : List (Item × ℕ)
  relationships : List (String × ℤ)
  hitByCount : List (String × ℕ)
  hitOthersCount : List (String × ℕ)

/-- Outcome of the details query for a given name: the not-found report string
or the record. -/
inductive DetailsResult where
  | notFound
  | record (d : RacerDetails)

/-- self.racers.get(name). -/
def findRacer (g : Game) (n : String) : Option Racer :=
  g.racers.find? (fun r => r.name = n)

/-- Game.get_racer_details.  Returns `none` for the AttributeError raised when
reading `last_hit_by_item` on a racer whose constructor never assigned it
(i.e. a racer that has never been hit). -/
def getRacerDetails (g : Game) (n : String) : Option DetailsResult :=
  match findRacer g n with
  | none => some DetailsResult.notFound
  | some r =>
    match r.lastHitByItem with
    | none => none
    | some lhi =>
      some (DetailsResult.record
        { position := r.position
          baseSpeed := r.baseSpeed
          currentItem := r.currentItem
          boostTimer := r.boostTimer
          hitTimer := r.hitTimer
          lastHitBy := r.lastHitBy
          lastHitByItem := lhi
          traits := r.traits
          itemUses := [(Item.boost, r.itemUses Item.boost),
            (Item.greenShell, r.itemUses Item.greenShell),
            (Item.redShell, r.itemUses Item.redShell),
            (Item.banana, r.itemUses Item.banana)]
          timesHitBy := [(Item.greenShell, r.timesHitBy Item.greenShell),
            (Item.redShell, r.timesHitBy Item.redShell),
            (Item.banana, r.timesHitBy Item.banana)]
          relationships := sortPairsAsc r.relationships
          hitByCount := r.hitByCount.filter (fun p => decide (0 < p.2))
          hitOthersCount := r.hitOthersCount.filter (fun p => decide (0 < p.2)) })

/-- One racer-level operation, in the sense of claim C3's reachability: an
item use, a hit application, or a step update.  Each operation carries the
environment the corresponding method reads (the racers view or the
positions snapshot, and the random sample a step may consume). -/
inductive RacerOp where
  | useIt (target : Option String) (view : List (String × ℚ))
  | hit (attacker : Option String) (item : Item)
  | step (positions : List (String × ℚ)) (randVal : ℚ)

/-- Apply one racer-level operation (projecting away the world effects of an
item use, which do not touch the racer's own timers). -/
def applyOp (cfg : Config) (r : Racer) : RacerOp → Option Racer
  | RacerOp.useIt t view => some (useItem cfg r t view [] []).racer
  | RacerOp.hit a it => applyHit cfg r a it
  | RacerOp.step ps v => (updateStep cfg r ps [v]).map (fun p => p.1)

/-- Apply a sequence of racer-level operations. -/
def applyOps (cfg : Config) (r : Racer) : List RacerOp → Option Racer
  | [] => some r
  | op :: rest =>
    match applyOp cfg r op with
    | none => none
    | some r2 => applyOps cfg r2 rest

/-- Every relationship score in the map is within [-10, 10]. -/
abbrev RelInv (rel : List (String × ℤ)) : Prop :=
  ∀ p ∈ rel, -10 ≤ p.2 ∧ p.2 ≤ 10

/-- A Red Shell use has a valid target: the identity resolves in the racers
view to a position strictly ahead of the attacker. -/
abbrev redShellHitValid (r : Racer) (tgt : Option String) (view : List (String × ℚ)) : Prop :=
  match tgt with
  | none => False
  | some t =>
    match view.lookup t with
    | none => False
    | some tpos => r.position < tpos

/-! Concrete instances used by the counterexamples and witnesses. -/

/-- An AI racer holding a Green Shell, in last place at position 0. -/
def rGreen : Racer :=
  { mkRacer defaultConfig "B" false 10 with
      currentItem := some Item.greenShell
      relationships := [("A", 0)] }

/-- A snapshot in which racer A is strictly ahead of racer B. -/
def c1positions : List (String × ℚ) := [("A", 100), ("B", 0)]

/-- A racer drawing an item while trailing the leader A by 200 units. -/
def rDraw : Racer := mkRacer defaultConfig "B" false 10

/-- Snapshot for the item draw: leader A at 200, the drawing racer B at 0. -/
def c2positions : List (String × ℚ) := [("A", 200), ("B", 0)]

/-- A fresh AI racer used to build the C3 trace. -/
def c3r0 : Racer := mkRacer defaultConfig "P" false 10

/-- Twenty plain steps (reaching the first item box at 200 and drawing a
Boost with sample 0), then a Green Shell hit from Q, then using the held
Boost while still stunned. -/
def c3trace : List RacerOp :=
  List.replicate 20 (RacerOp.step [] 0) ++
    [RacerOp.hit (some "Q") Item.greenShell, RacerOp.useIt none []]

/-- The racer state after the C3 trace. -/
def c3final : Racer := (applyOps defaultConfig c3r0 c3trace).getD c3r0

/-- A never-hit racer about to take a Green Shell hit. -/
def c3rW : Racer := mkRacer defaultConfig "W" false 10

/-- The racer state right after that hit. -/
def c3resR : Racer := (applyHit defaultConfig c3rW (some "A") Item.greenShell).getD c3rW

/-- A fresh game: eight racers, all speeds 10, nobody hit yet. -/
def c4game : Game := initGame defaultConfig (List.replicate 8 (10 : ℚ))

/-- A racer currently inside its hit-immunity window. -/
def rImmune : Racer := { mkRacer defaultConfig "I" false 10 with hitTimer := 1 }

/-- A racer with an empty item slot. -/
def rEmpty : Racer := mkRacer defaultConfig "E" false 10

/-- A racer holding a Boost. -/
def rHold : Racer := { mkRacer defaultConfig "H" false 10 with currentItem := some Item.boost }

/-- A racer holding a Red Shell at position 0. -/
def rRed : Racer := { mkRacer defaultConfig "R" false 10 with currentItem := some Item.redShell }

/-- A terminal game state with a recorded winner. -/
def gTerm : Game :=
  { racers := []
    playerName := "Player"
    winner := some "Player"
    stepCount := 7
    gameOver := true
    lastPositions := []
    obstacles := [] }

/-! Helper lemmas. -/

/-- Trait re-evaluation only rewrites the trait set. -/
theorem checkTrait_relationships (cfg : Config) (r : Racer) :
    (checkTraitConditions cfg r).relationships = r.relationships := rfl

/-- Looking up the key a keyed map rewrite targeted returns the rewritten
value of the first binding. -/
theorem lookup_keyed_map (rel : List (String × ℤ)) (n : String) (f : ℤ → ℤ) :
    (rel.map (fun p => if p.1 = n then (p.1, f p.2) else p)).lookup n =
      (rel.lookup n).map f := by
  induction rel with
  | nil => rfl
  | cons hd tl ih =>
    obtain ⟨k, x⟩ := hd
    by_cases h : k = n
    · subst h
      rw [List.map_cons, if_pos rfl]
      simp [List.lookup]
    · have h2 : (n == k) = false := by
        simp [Ne.symm h]
      rw [List.map_cons, if_neg h]
      simp [List.lookup, h2, ih]

/-- An index returned by list.index points at a genuine occurrence. -/
theorem indexOfPair_mem (x : String × ℚ) (l : List (String × ℚ)) (i : ℕ)
    (h : indexOfPair x l = some i) : x ∈ l := by
  induction l generalizing i with
  | nil => cases h
  | cons y ys ih =>
    rw [indexOfPair] at h
    by_cases hyx : y = x
    · exact hyx ▸ List.mem_cons_self y ys
    · rw [if_neg hyx] at h
      cases hi : indexOfPair x ys with
      | none => rw [hi] at h; cases h
      | some j => exact List.mem_cons_of_mem y (ih j hi)

/-- In a position-descending list, everything after the indexed element is at
or below it and everything before is at or above it. -/
theorem sorted_split_at_index (x : String × ℚ) (l : List (String × ℚ)) (i : ℕ)
    (hsort : l.Pairwise (fun a b => b.2 ≤ a.2))
    (h : indexOfPair x l = some i) :
    (∀ q ∈ l.drop (i + 1), q.2 ≤ x.2) ∧ (∀ q ∈ l.take i, x.2 ≤ q.2) := by
  induction l generalizing i with
  | nil => cases h
  | cons y ys ih =>
    rw [indexOfPair] at h
    obtain ⟨hhead, htail⟩ := List.pairwise_cons.mp hsort
    by_cases hyx : y = x
    · rw [if_pos hyx] at h
      injection h with h
      subst h
      subst hyx
      constructor
      · intro q hq
        exact hhead q (by simpa using hq)
      · intro q hq
        simp at hq
    · rw [if_neg hyx] at h
      cases hi : indexOfPair x ys with
      | none => rw [hi] at h; cases h
      | some j =>
        rw [hi] at h
        injection h with h
        subst h
        obtain ⟨h1, h2⟩ := ih j htail hi
        constructor
        · intro q hq
          exact h1 q (by simpa using hq)
        · intro q hq
          rw [List.take_succ_cons] at hq
          rcases List.mem_cons.mp hq with hqy | hqt
          · subst hqy
            exact hhead x (indexOfPair_mem x ys j hi)
          · exact h2 q hqt

/-- Support for C1: against any position-descending snapshot that contains the
racer's own (name, position) entry — which is what get_state always
produces — an AI racer holding a Green Shell never fires: racers_ahead
comes out empty regardless of who is ahead, so decide_action returns
("drive", None) and consumes no randomness. -/
theorem decideAction_greenShell_never_fires (cfg : Config) (r : Racer)
    (positions view : List (String × ℚ)) (rng : List ℚ) (i : ℕ)
    (hplayer : r.isPlayer = false) (hitem : r.currentItem = some Item.greenShell)
    (hsort : positions.Pairwise (fun a b => b.2 ≤ a.2))
    (hidx : indexOfPair (r.name, r.position) positions = some i) :
    decideAction cfg r positions view rng = some ((some "drive", none), rng) := by
  obtain ⟨hafter, hbefore⟩ := sorted_split_at_index _ _ _ hsort hidx
  have hahead : (positions.drop (i + 1)).filter (fun q => decide (r.position < q.2)) = [] := by
    rw [List.filter_eq_nil_iff]
    intro q hq
    simpa using not_lt.mpr (hafter q hq)
  have hbehind : (positions.take i).filter (fun q => decide (q.2 < r.position)) = [] := by
    rw [List.filter_eq_nil_iff]
    intro q hq
    simpa using not_lt.mpr (hbefore q hq)
  rcases harg : argminByRel r.relationships
      (List.filter (fun p => decide (relGet r.relationships p.1 ≤ cfg.nemesisTargetingThreshold))
        view) with _ | nt <;>
    simp [decideAction, hplayer, hitem, hidx, hahead, hbehind, harg]

/-- In a position-descending list the last element is at or below every
member. -/
theorem getLast_le_of_sorted (l : List (String × ℚ)) (q : String × ℚ)
    (hsort : l.Pairwise (fun a b => b.2 ≤ a.2)) (hq : q ∈ l) :
    ∃ p, l.getLast? = some p ∧ p.2 ≤ q.2 := by
  induction l with
  | nil => cases hq
  | cons y ys ih =>
    obtain ⟨hhead, htail⟩ := List.pairwise_cons.mp hsort
    cases ys with
    | nil =>
      simp only [List.mem_singleton] at hq
      subst hq
      exact ⟨q, rfl, le_refl _⟩
    | cons z zs =>
      rcases List.mem_cons.mp hq with hqy | hqt
      · cases hp : (z :: zs).getLast? with
        | none => exact absurd (List.getLast?_eq_none_iff.mp hp) (by simp)
        | some p =>
          have hpmem : p ∈ z :: zs := by
            obtain ⟨hne, hpe⟩ := List.mem_getLast?_eq_getLast (by rw [hp]; rfl)
            rw [hpe]
            exact List.getLast_mem hne
          refine ⟨p, ?_, ?_⟩
          · rw [List.getLast?_cons_cons]
            exact hp
          · subst hqy
            exact hhead p hpmem
      · obtain ⟨p, hp1, hp2⟩ := ih htail hqt
        refine ⟨p, ?_, hp2⟩
        rw [List.getLast?_cons_cons]
        exact hp1

/-- Support for C2: whenever the snapshot is position-descending and contains
an entry at or behind the drawing racer — in particular the racer's own
pre-step entry — the catch-up condition compares the trailing racer, not
the leader, and can never fire: the boost chance used is the unmodified
base chance, whatever the actual leader gap is. -/
theorem usedBoostChance_never_boosted (cfg : Config) (r : Racer)
    (positions : List (String × ℚ)) (q : String × ℚ)
    (hthr : 0 ≤ cfg.catchUpAssistThreshold)
    (hsort : positions.Pairwise (fun a b => b.2 ≤ a.2))
    (hq : q ∈ positions) (hqle : q.2 ≤ r.position) :
    usedBoostChance cfg r positions = cfg.itemChanceBoost := by
  obtain ⟨p, hp1, hp2⟩ := getLast_le_of_sorted positions q hsort hq
  unfold usedBoostChance
  rw [hp1]
  rw [if_neg]
  intro hcontra
  have hle : p.2 - r.position ≤ 0 := by linarith
  linarith

/-! Claim theorems. -/

/-- C6: a racer whose hit timer is strictly positive is immune: apply_hit
returns before mutating anything, leaving every field of the racer — all
counters, both timers, last-hit bookkeeping, relationships and traits —
unchanged. -/
theorem applyHit_immune_noop (cfg : Config) (r : Racer) (a : Option String) (it : Item)
    (h : 0 < r.hitTimer) : applyHit cfg r a it = some r := by
  simp [applyHit, h]

/-- Witness for C6 at a concrete immune racer. -/
theorem applyHit_immune_noop_witness :
    applyHit defaultConfig rImmune (some "X") Item.banana = some rImmune :=
  applyHit_immune_noop defaultConfig rImmune (some "X") Item.banana (by decide)

/-- C10: the absolute relationship set (update_relationship with delta
v - current) followed by a read returns exactly v clamped to [-10, 10]. -/
theorem updateRelationship_absolute_set (rel : List (String × ℤ)) (n : String) (s v : ℤ)
    (hmem : rel.lookup n = some s) (_hlo : -10 ≤ s) (_hhi : s ≤ 10) :
    (updateRelationship rel n (v - s)).lookup n = some (max (-10) (min 10 v)) := by
  unfold updateRelationship
  rw [if_pos (by simp [hmem])]
  rw [lookup_keyed_map rel n (fun z => max (-10) (min 10 (z + (v - s)))), hmem]
  simp only [Option.map_some']
  have hsv : s + (v - s) = v := by ring
  rw [hsv]

/-- Witness for C10: setting score 3 to 99 reads back as the clamp 10. -/
theorem updateRelationship_absolute_set_witness :
    (updateRelationship [("A", (3 : ℤ))] "A" (99 - 3)).lookup "A" =
      some (max (-10) (min 10 99)) :=
  updateRelationship_absolute_set [("A", 3)] "A" 3 99 rfl (by decide) (by decide)

/-- C5: every relationship score stays in [-10, 10]: the bound holds after
initialize_relationships and is preserved by update_relationship with any
delta (which covers the overtake penalty, the finish-ahead penalty and the
absolute set) and by apply_hit (the hit penalty). -/
theorem relationship_scores_bounded :
    (∀ (r : Racer) (allRacers : List Racer),
      RelInv (initRelationships r allRacers).relationships) ∧
    (∀ (rel : List (String × ℤ)) (n : String) (c : ℤ),
      RelInv rel → RelInv (updateRelationship rel n c)) ∧
    (∀ (cfg : Config) (r : Racer) (a : Option String) (it : Item) (r2 : Racer),
      RelInv r.relationships → applyHit cfg r a it = some r2 →
      RelInv r2.relationships) := by
  have hupd : ∀ (rel : List (String × ℤ)) (n : String) (c : ℤ),
      RelInv rel → RelInv (updateRelationship rel n c) := by
    intro rel n c hinv p hp
    unfold updateRelationship at hp
    split at hp
    · rw [List.mem_map] at hp
      obtain ⟨q, hq, hpq⟩ := hp
      by_cases h : q.1 = n
      · rw [if_pos h] at hpq
        have : p.2 = max (-10) (min 10 (q.2 + c)) := by rw [← hpq]
        rw [this]
        constructor
        · exact le_max_left _ _
        · exact max_le (by norm_num) (min_le_left _ _)
      · rw [if_neg h] at hpq
        exact hpq ▸ hinv q hq
    · exact hinv p hp
  refine ⟨?_, hupd, ?_⟩
  · intro r allRacers p hp
    simp only [initRelationships, List.mem_map] at hp
    obtain ⟨o, _, hpo⟩ := hp
    rw [← hpo]
    constructor <;> norm_num
  · intro cfg r a it r2 hinv heq
    by_cases hti : 0 < r.hitTimer
    · have hnoop : applyHit cfg r a it = some r := by
        simp [applyHit, hti]
      rw [hnoop] at heq
      injection heq with h
      exact h ▸ hinv
    · cases it <;> simp only [applyHit, hti, if_false] at heq
      · cases heq
      all_goals
        cases a <;>
          (injection heq with h
           rw [← h, checkTrait_relationships]
           first
             | exact hinv
             | exact hupd _ _ _ hinv)

/-- Witness for C5: a concrete in-range map stays in range after an update. -/
theorem relationship_scores_bounded_witness :
    RelInv (updateRelationship [("A", (0 : ℤ))] "A" (-99)) :=
  relationship_scores_bounded.2.1 [("A", 0)] "A" (-99) (by decide)

/-- C7: use_item reports whether an item was consumed: with an empty slot it
returns False and nothing changes; with a held item it returns True, the
slot is empty afterwards, the used kind's usage counter goes up by exactly
one and no other usage counter moves. -/
theorem useItem_consumes (cfg : Config) (r : Racer) (tgt : Option String)
    (view : List (String × ℚ)) (ev : List HitEvent) (obs : List Obstacle) :
    (r.currentItem = none → useItem cfg r tgt view ev obs = ⟨false, r, ev, obs⟩) ∧
    (∀ it, r.currentItem = some it →
      (useItem cfg r tgt view ev obs).used = true ∧
      (useItem cfg r tgt view ev obs).racer.currentItem = none ∧
      (useItem cfg r tgt view ev obs).racer.itemUses it = r.itemUses it + 1 ∧
      ∀ j, j ≠ it → (useItem cfg r tgt view ev obs).racer.itemUses j = r.itemUses j) := by
  constructor
  · intro h
    simp [useItem, h]
  · intro it h
    have key : ∃ (bt : ℕ) (hoc : List (String × ℕ)) (ev2 : List HitEvent)
        (obs2 : List Obstacle),
        useItem cfg r tgt view ev obs =
          ⟨true,
            { r with
              currentItem := none
              itemUses := fun i => if i = it then r.itemUses i + 1 else r.itemUses i
              boostTimer := bt
              hitOthersCount := hoc },
            ev2, obs2⟩ := by
      cases it <;> simp only [useItem, h]
      case boost => exact ⟨cfg.boostDuration, r.hitOthersCount, ev, obs, rfl⟩
      case greenShell =>
        rcases tgt with _ | t
        · exact ⟨r.boostTimer, r.hitOthersCount, ev, obs, rfl⟩
        · cases hl : view.lookup t
          · refine ⟨r.boostTimer, r.hitOthersCount, ev, obs, ?_⟩
            simp [hl]
          · refine ⟨r.boostTimer, bumpCount r.hitOthersCount t,
              ev ++ [⟨r.name, t, Item.greenShell⟩], obs, ?_⟩
            simp [hl]
      case redShell =>
        rcases tgt with _ | t
        · exact ⟨r.boostTimer, r.hitOthersCount, ev, obs, rfl⟩
        · cases hl : view.lookup t
          · refine ⟨r.boostTimer, r.hitOthersCount, ev, obs, ?_⟩
            simp [hl]
          · rename_i tpos
            by_cases hp : r.position < tpos
            · refine ⟨r.boostTimer, bumpCount r.hitOthersCount t,
                ev ++ [⟨r.name, t, Item.redShell⟩], obs, ?_⟩
              simp [hl, hp]
            · refine ⟨r.boostTimer, r.hitOthersCount, ev, obs, ?_⟩
              simp [hl, hp]
      case banana =>
        exact ⟨r.boostTimer, r.hitOthersCount, ev,
          obs ++ [⟨Item.banana, r.position - r.baseSpeed / 2, r.name⟩], rfl⟩
    obtain ⟨bt, hoc, ev2, obs2, hkey⟩ := key
    rw [hkey]
    refine ⟨rfl, rfl, by simp, fun j hj => by simp [hj]⟩

/-- Witness for C7: an empty slot is a no-op returning False; a held Boost is
consumed, emptying the slot and bumping exactly its usage counter. -/
theorem useItem_consumes_witness :
    useItem defaultConfig rEmpty none [] [] [] = ⟨false, rEmpty, [], []⟩ ∧
    (useItem defaultConfig rHold none [] [] []).used = true ∧
    (useItem defaultConfig rHold none [] [] []).racer.currentItem = none ∧
    (useItem defaultConfig rHold none [] [] []).racer.itemUses Item.boost =
      rHold.itemUses Item.boost + 1 ∧
    (useItem defaultConfig rHold none [] [] []).racer.itemUses Item.banana =
      rHold.itemUses Item.banana :=
  ⟨(useItem_consumes defaultConfig rEmpty none [] [] []).1 rfl,
    ((useItem_consumes defaultConfig rHold none [] [] []).2 Item.boost rfl).1,
    ((useItem_consumes defaultConfig rHold none [] [] []).2 Item.boost rfl).2.1,
    ((useItem_consumes defaultConfig rHold none [] [] []).2 Item.boost rfl).2.2.1,
    ((useItem_consumes defaultConfig rHold none [] [] []).2 Item.boost rfl).2.2.2
      Item.banana (by decide)⟩

/-- C8: using a Red Shell consumes the item either way, and it emits exactly
one pending hit event and bumps the attacker's per-target hit-attempt
counter precisely when the target identity resolves to a racer positioned
strictly ahead of the attacker; otherwise nothing is emitted and no counter
moves. -/
theorem useItem_redShell_gate (cfg : Config) (r : Racer) (tgt : Option String)
    (view : List (String × ℚ)) (ev : List HitEvent) (obs : List Obstacle)
    (h : r.currentItem = some Item.redShell) :
    (useItem cfg r tgt view ev obs).used = true ∧
    (useItem cfg r tgt view ev obs).racer.currentItem = none ∧
    (∀ t, tgt = some t → redShellHitValid r tgt view →
      (useItem cfg r tgt view ev obs).events = ev ++ [⟨r.name, t, Item.redShell⟩] ∧
      (useItem cfg r tgt view ev obs).racer.hitOthersCount = bumpCount r.hitOthersCount t) ∧
    (¬ redShellHitValid r tgt view →
      (useItem cfg r tgt view ev obs).events = ev ∧
      (useItem cfg r tgt view ev obs).racer.hitOthersCount = r.hitOthersCount) := by
  simp only [useItem, h]
  rcases tgt with _ | t
  · refine ⟨by trivial, by trivial, ?_, ?_⟩
    · intro t2 ht2
      cases ht2
    · intro _
      constructor <;> trivial
  · cases hl : view.lookup t
    · simp only [hl]
      refine ⟨by trivial, by trivial, ?_, ?_⟩
      · intro t2 ht2 hval
        simp only [redShellHitValid, hl] at hval
      · intro _
        constructor <;> trivial
    · rename_i tpos
      simp only [hl]
      by_cases hp : r.position < tpos
      · rw [if_pos hp]
        refine ⟨by trivial, by trivial, ?_, ?_⟩
        · intro t2 ht2 _
          injection ht2 with ht2
          subst ht2
          constructor <;> trivial
        · intro hnval
          exact absurd (by simpa only [redShellHitValid, hl] using hp) hnval
      · rw [if_neg hp]
        refine ⟨by trivial, by trivial, ?_, ?_⟩
        · intro t2 ht2 hval
          simp only [redShellHitValid, hl] at hval
          exact absurd hval hp
        · intro _
          constructor <;> trivial

/-- Witness for C8: a Red Shell fired at a racer five units ahead emits the
event and bumps the per-target counter. -/
theorem useItem_redShell_gate_witness :
    (useItem defaultConfig rRed (some "A") [("A", 5)] [] []).used = true ∧
    (useItem defaultConfig rRed (some "A") [("A", 5)] [] []).racer.currentItem = none ∧
    (useItem defaultConfig rRed (some "A") [("A", 5)] [] []).events =
      [] ++ [⟨rRed.name, "A", Item.redShell⟩] ∧
    (useItem defaultConfig rRed (some "A") [("A", 5)] [] []).racer.hitOthersCount =
      bumpCount rRed.hitOthersCount "A" := by
  have h := useItem_redShell_gate defaultConfig rRed (some "A") [("A", 5)] [] [] rfl
  have hv : redShellHitValid rRed (some "A") [("A", 5)] := by
    norm_num [redShellHitValid, rRed, mkRacer, List.lookup]
  exact ⟨h.1, h.2.1, (h.2.2.1 "A" rfl hv).1, (h.2.2.1 "A" rfl hv).2⟩

/-- C1 is a code bug: with the snapshot sorted by position descending, the
source slices the tail of the list (racers at or behind self) and then
filters for strictly greater positions, so racers_ahead is always empty.
Concretely, an AI racer holding a Green Shell with racer A strictly ahead
returns ("drive", None) — the claimed target set is nonempty yet the item
is never used.  (Were the filter ever satisfied, the comprehension would
raise NameError on its unbound element variable.) -/
theorem decideAction_greenShell_ignores_agent_ahead :
    (∃ p ∈ c1positions, rGreen.position < p.2) ∧
    rGreen.currentItem = some Item.greenShell ∧
    decideAction defaultConfig rGreen c1positions c1positions [] =
      some ((some "drive", none), []) :=
  ⟨by decide, rfl, by decide⟩

/-- C2 is a code bug: get_item reads positions[-1] — the minimum of the
descending-sorted snapshot, not the leader — as leader_pos, so the catch-up
branch can never fire.  Concretely, with the leader 200 ahead of the
drawing racer (gap above the threshold 150), the boost chance used for
sampling is the unmodified base 2/5 and the draw 1/2 yields a Green Shell,
although the claimed boosted chance 2/5 * 3/2 = 3/5 classifies 1/2 as a
Boost. -/
theorem getItem_catchup_never_applies :
    usedBoostChance defaultConfig rDraw c2positions = defaultConfig.itemChanceBoost ∧
    defaultConfig.catchUpAssistThreshold < (200 : ℚ) - rDraw.position ∧
    (1 : ℚ)/2 < defaultConfig.itemChanceBoost * defaultConfig.catchUpItemBoostMult ∧
    (getItem defaultConfig rDraw c2positions (1/2)).currentItem = some Item.greenShell := by
  norm_num [usedBoostChance, getItem, rDraw, c2positions, defaultConfig, mkRacer]

/-- C4 is a code bug: the constructor never assigns last_hit_by_item, and
get_racer_details reads it unconditionally, so the details query fails with
AttributeError for any racer that has never been hit.  Concretely, CPU_1 is
present in a freshly initialized game yet its details query fails. -/
theorem getRacerDetails_fresh_racer_fails :
    (c4game.racers.any (fun r => r.name = "CPU_1")) = true ∧
    getRacerDetails c4game "CPU_1" = none :=
  ⟨by decide, rfl⟩

/-- C3 counterexample: the two status timers are NOT mutually exclusive over
reachable states.  A racer that runs twenty plain steps (drawing a Boost at
the 200-unit item box), is then hit by a Green Shell (hitTimer = 2,
boostTimer cancelled to 0) and then uses the held Boost ends with
boostTimer = 3 and hitTimer = 2 both positive: use_item starts a boost
without checking the hit timer. -/
theorem timers_both_positive_after_boost_while_stunned :
    0 < c3final.boostTimer ∧ 0 < c3final.hitTimer ∧
    (applyOps defaultConfig c3r0 c3trace).isSome = true := by
  norm_num [c3final, c3trace, c3r0, applyOps, applyOp, updateStep, applyHit, useItem, getItem,
    usedBoostChance, checkTraitConditions, updateRelationship, bumpCount, setTrait, rngNext,
    mkRacer, defaultConfig, relGet, List.replicate]
  decide

/-- C3 amended: a hit does cancel any active boost — a non-immune apply_hit
with a shell or banana always leaves boostTimer = 0 and sets hitTimer to
the configured duration for that item kind — but the exclusivity is one
directional only: using a Boost while hitTimer > 0 makes both timers
positive (see the counterexample). -/
theorem applyHit_cancels_boost (cfg : Config) (r : Racer) (a : Option String) (it : Item)
    (r2 : Racer) (hImm : r.hitTimer = 0) (hIt : it ≠ Item.boost)
    (heq : applyHit cfg r a it = some r2) :
    r2.boostTimer = 0 ∧
    r2.hitTimer = (if it = Item.banana then cfg.bananaHitDuration else cfg.shellHitDuration) := by
  have hti : ¬ 0 < r.hitTimer := by omega
  cases it <;> simp only [applyHit, hti, if_false] at heq
  · exact absurd rfl hIt
  all_goals
    cases a <;>
      (injection heq with h
       rw [← h]
       exact ⟨rfl, rfl⟩)

/-- Witness for C3's amended theorem at a concrete never-hit racer taking a
Green Shell hit. -/
theorem applyHit_cancels_boost_witness :
    c3resR.boostTimer = 0 ∧
    c3resR.hitTimer = (if Item.greenShell = Item.banana then defaultConfig.bananaHitDuration
      else defaultConfig.shellHitDuration) :=
  applyHit_cancels_boost defaultConfig c3rW (some "A") Item.greenShell c3resR rfl
    (by decide) rfl

/-- The win check either leaves winner and terminal flag untouched or sets the
terminal flag. -/
theorem winCheckPhase_winner_gameOver (cfg : Config) (g : Game) :
    ((winCheckPhase cfg g).winner = g.winner ∧ (winCheckPhase cfg g).gameOver = g.gameOver) ∨
      (winCheckPhase cfg g).gameOver = true := by
  unfold winCheckPhase
  cases g.racers.find? (fun r => decide (cfg.trackLength ≤ r.position))
  · exact Or.inl ⟨rfl, rfl⟩
  · exact Or.inr rfl

/-- C9: terminal is absorbing.  On a terminal game run_step returns at once
with the state unchanged (so the returned flag is terminal=true and no
agent field, obstacle, step counter or winner moves); moreover, whenever
a recorded winner implies terminality (true from initialization on, since
both are only ever set together), a step preserves that implication and
never reassigns a recorded winner. -/
theorem runStep_terminal_absorbing (cfg : Config) (g g2 : Game)
    (pa pt : Option String) (rng : List ℚ)
    (hInv : g.winner.isSome → g.gameOver = true) :
    (g.gameOver = true → runStep cfg g pa pt rng = some g) ∧
    (runStep cfg g pa pt rng = some g2 →
      (g2.winner.isSome → g2.gameOver = true) ∧
      ∀ w, g.winner = some w → g2.winner = some w) := by
  constructor
  · intro hgo
    unfold runStep
    rw [if_pos hgo]
  · intro hrun
    by_cases hgo : g.gameOver = true
    · unfold runStep at hrun
      rw [if_pos hgo] at hrun
      injection hrun with h
      subst h
      exact ⟨fun _ => hgo, fun w hw => hw⟩
    · have hwin : g.winner = none := by
        cases hw : g.winner with
        | none => rfl
        | some w => exact absurd (hInv (by simp [hw])) hgo
      unfold runStep at hrun
      rw [if_neg hgo] at hrun
      simp only [] at hrun
      split at hrun
      · cases hrun
      split at hrun
      · cases hrun
      split at hrun
      · cases hrun
      split at hrun
      · cases hrun
      injection hrun with h
      subst h
      rcases winCheckPhase_winner_gameOver cfg
          { g with
            stepCount := g.stepCount + 1
            racers := _
            obstacles := _
            lastPositions := _ } with hsame | hover
      · constructor
        · intro hs
          exact absurd (hwin ▸ hsame.1 ▸ hs) (by simp)
        · intro w hw
          rw [hwin] at hw
          cases hw
      · constructor
        · intro _
          exact hover
        · intro w hw
          rw [hwin] at hw
          cases hw

/-- Witness for C9: stepping a concrete terminal game with a recorded winner
returns it unchanged. -/
theorem runStep_terminal_absorbing_witness :
    runStep defaultConfig gTerm none none [] = some gTerm :=
  (runStep_terminal_absorbing defaultConfig gTerm gTerm none none [] (fun _ => rfl)).1 rfl

end NemesisKart
